import Mathlib

/-!
Verification development for the FormFiller-Web repository.

The definitions below are a shallow embedding of the JavaScript sources:
  backend/services/ocrService.js   (field detection, validation)
  backend/services/pdfService.js   (document fill engine)
  backend/routes/formRoutes.js     (the /chat state-machine transition)
  backend/utils/sessionStore.js    (in-memory session store)

JavaScript strings are modelled as Lean `String`; JS numbers appearing in
geometry are modelled as `ℚ`; regular expressions are modelled by executable
Lean functions whose semantics matches the concrete regex literal used in the
source (each such function carries a comment citing the regex it embeds).
Fallible code paths (a thrown TypeError) are modelled with `Except String`.
-/

namespace FormFiller

/-- The whitespace class used by JS `\s` and `String.prototype.trim`
(ASCII whitespace plus NBSP and BOM; the model restricts to these). -/
def isJsWhitespace (c : Char) : Bool :=
  c = ' ' || c = '\t' || c = '\n' || c = '\r' || c = '\x0b' || c = '\x0c' ||
  c = '\u00A0' || c = '\uFEFF'

/-- Model of `String.prototype.trim`. -/
def jsTrim (s : String) : String :=
  String.mk (((s.toList.dropWhile isJsWhitespace).reverse.dropWhile isJsWhitespace).reverse)

/-- Model of `String.prototype.toLowerCase` (ASCII letters). -/
def lowerStr (s : String) : String :=
  String.mk (s.toList.map Char.toLower)

/-- JS `\w` word character: `[A-Za-z0-9_]`. -/
def isWordChar (c : Char) : Bool :=
  c.isAlphanum || c = '_'

/-- Character-list prefix test. -/
def isPrefixCh : List Char → List Char → Bool
  | [], _ => true
  | _ :: _, [] => false
  | a :: as, b :: bs => a = b && isPrefixCh as bs

/-- Model of `String.prototype.includes`: `needle` occurs in `hay`. -/
def containsSub (needle hay : List Char) : Bool :=
  match hay with
  | [] => isPrefixCh needle []
  | _ :: t => isPrefixCh needle hay || containsSub needle t

/-- Model of `str.split(/\s+/)` as a list of character lists: split at each
maximal whitespace run; a leading or trailing run yields an empty piece.
(Right-to-left structural recursion; a whitespace character opens a new piece
only when it is the last character of its run.) -/
def jsSplitWsAux : List Char → List (List Char)
  | [] => [[]]
  | c :: cs =>
    if isJsWhitespace c then
      match cs with
      | c2 :: _ =>
        if isJsWhitespace c2 then jsSplitWsAux cs else [] :: jsSplitWsAux cs
      | [] => [] :: jsSplitWsAux cs
    else
      match jsSplitWsAux cs with
      | [] => [[c]]
      | h :: t => (c :: h) :: t

/-- Model of `str.split(/\s+/)` on strings. -/
def jsSplitWs (s : String) : List String :=
  (jsSplitWsAux s.toList).map String.mk

/-- Model of `replace(/\s+/g, ' ')`: collapse each whitespace run to one
space (the space is emitted at the last character of the run). -/
def normalizeWs : List Char → List Char
  | [] => []
  | c :: cs =>
    if isJsWhitespace c then
      match cs with
      | c2 :: _ => if isJsWhitespace c2 then normalizeWs cs else ' ' :: normalizeWs cs
      | [] => [' ']
    else c :: normalizeWs cs

/-- Whether the list contains a run of at least three consecutive copies of
`c` (models `/_{3,}/` and `/\.{3,}/`). -/
def hasRun3 (c : Char) : List Char → Bool
  | a :: rest@(b :: d :: _) => (a = c && b = c && d = c) || hasRun3 c rest
  | _ => false

/-- Model of `label.charAt(0).toUpperCase() + label.slice(1)`. -/
def capitalizeFirst (s : String) : String :=
  match s.toList with
  | [] => ""
  | c :: rest => String.mk (c.toUpper :: rest)

/-! ## FieldValidator: `validateFieldValue` in ocrService.js -/

/-- Characters admitted by the email regex pieces `[^\s@]`. -/
def emailOkChar (c : Char) : Bool :=
  !isJsWhitespace c && c ≠ '@'

/-- Split a character list at the first occurrence of `ch`. -/
def splitAtChar (ch : Char) : List Char → Option (List Char × List Char)
  | [] => none
  | c :: cs =>
    if c = ch then some ([], cs)
    else (splitAtChar ch cs).map (fun p => (c :: p.1, p.2))

/-- Whether some `'.'` occurs with at least one character after it. -/
def dotWithTail : List Char → Bool
  | [] => false
  | c :: rest => (c = '.' && !rest.isEmpty) || dotWithTail rest

/-- Model of the email regex `^[^\s@]+@[^\s@]+\.[^\s@]+$`: the string is
`A@M.T` with `A`, `M`, `T` nonempty and free of whitespace and `@`
(`M` and `T` may themselves contain dots, hence: some text before the first
`@`, no second `@`, no whitespace, and a dot strictly inside the tail). -/
def emailTest (v : String) : Bool :=
  match splitAtChar '@' v.toList with
  | none => false
  | some (lp, rest) =>
    !lp.isEmpty && lp.all emailOkChar && rest.all emailOkChar &&
    (match rest with
     | [] => false
     | _ :: rest2 => dotWithTail rest2)

/-- Characters admitted by the phone regex class `[\d\s\-\+\(\)]`. -/
def isPhoneChar (c : Char) : Bool :=
  c.isDigit || isJsWhitespace c || c = '-' || c = '+' || c = '(' || c = ')'

/-- Model of the phone regex `^[\d\s\-\+\(\)]{10,}$`: at least ten characters,
every one of them a digit, whitespace, hyphen, plus or parenthesis. -/
def phoneTest (v : String) : Bool :=
  10 ≤ v.length && v.toList.all isPhoneChar

/-- A date separator per the class `[\/\-]`. -/
def isDateSep (c : Char) : Bool :=
  c = '/' || c = '-'

/-- Model of the date regex `^\d{1,2}[\/\-]\d{1,2}[\/\-]\d{2,4}$`, as the
existence of a decomposition with segment lengths 1-2, 1-2 and 2-4. -/
def dateTest (v : String) : Bool :=
  let cs := v.toList
  [1, 2].any fun a => [1, 2].any fun b => [2, 3, 4].any fun c =>
    cs.length = a + b + c + 2 &&
    (cs.take a).all Char.isDigit &&
    isDateSep (cs.getD a 'x') &&
    ((cs.drop (a + 1)).take b).all Char.isDigit &&
    isDateSep (cs.getD (a + 1 + b) 'x') &&
    ((cs.drop (a + b + 2)).all Char.isDigit)

/-- Model of the ssn regex `^\d{3}-?\d{2}-?\d{4}$`, as the existence of a
decomposition where each optional hyphen is present or absent. -/
def ssnTest (v : String) : Bool :=
  let cs := v.toList
  [0, 1].any fun h1 => [0, 1].any fun h2 =>
    cs.length = 9 + h1 + h2 &&
    (cs.take 3).all Char.isDigit &&
    (h1 = 0 || cs.getD 3 'x' = '-') &&
    ((cs.drop (3 + h1)).take 2).all Char.isDigit &&
    (h2 = 0 || cs.getD (5 + h1) 'x' = '-') &&
    ((cs.drop (5 + h1 + h2)).all Char.isDigit)

structure ValidationResult where
  valid : Bool
  message : String
  deriving Repr, DecidableEq

/-- Shallow embedding of `validateFieldValue(type, value)` from
ocrService.js: empty check first, then the per-type pattern checks. -/
def validateFieldValue (type value : String) : ValidationResult :=
  if value = "" || (jsTrim value).length = 0 then
    ⟨false, "This field cannot be empty"⟩
  else if type = "email" then
    if emailTest value then ⟨true, "Valid"⟩
    else ⟨false, "Please provide a valid email address"⟩
  else if type = "phone" then
    if phoneTest value then ⟨true, "Valid"⟩
    else ⟨false, "Please provide a valid phone number (at least 10 digits)"⟩
  else if type = "date" then
    if dateTest value then ⟨true, "Valid"⟩
    else ⟨false, "Please provide a date in format MM/DD/YYYY or DD-MM-YYYY"⟩
  else if type = "ssn" then
    if ssnTest value then ⟨true, "Valid"⟩
    else ⟨false, "Please provide a valid SSN (XXX-XX-XXXX)"⟩
  else
    ⟨true, "Valid"⟩

/-! ## Keyword-pattern machinery

Every entry of `fieldPatterns` in ocrService.js is a regex of the shape
`\b(alt1|alt2|...)\b` with the `i` flag, where each alternative is a sequence
of literal chunks joined by `\s*`.  An alternative is modelled as a
`List String` of its chunks; a pattern as the ordered list of alternatives.
All chunks start and end with word characters, so the `\b` anchors reduce to:
the character before the match site is not a word character, and the
character after the matched text is not a word character. -/

/-- Match one literal chunk case-insensitively; return the remainder. -/
def matchChunk : List Char → List Char → Option (List Char)
  | [], cs => some cs
  | _ :: _, [] => none
  | a :: as, c :: cs => if c.toLower = a.toLower then matchChunk as cs else none

/-- Match a sequence of chunks joined by `\s*` (greedy whitespace skipping is
exact here because no chunk starts with whitespace); return the remainder. -/
def matchSeq : List (List Char) → List Char → Option (List Char)
  | [], cs => some cs
  | [w], cs => matchChunk w cs
  | w :: w2 :: ws, cs =>
    match matchChunk w cs with
    | none => none
    | some rest => matchSeq (w2 :: ws) (rest.dropWhile isJsWhitespace)

/-- The trailing `\b`: end of input or a non-word character follows. -/
def boundaryAfter : List Char → Bool
  | [] => true
  | c :: _ => !isWordChar c

/-- Try one alternative at the current position; on success return the
matched text (the consumed prefix). -/
def altAt (alt : List String) (cs : List Char) : Option (List Char) :=
  match matchSeq (alt.map String.toList) cs with
  | none => none
  | some rest =>
    if boundaryAfter rest then some (cs.take (cs.length - rest.length)) else none

/-- Try the alternatives in order at the current position. -/
def tryAltsAt (alts : List (List String)) (cs : List Char) : Option (List Char) :=
  alts.findSome? (fun alt => altAt alt cs)

/-- Leftmost match of the pattern, as performed by `str.match(re)` /
`re.test(str)`: scan positions left to right, try the alternatives in order;
`prev` records whether the preceding character is a word character (the
leading `\b`).  Returns the matched text. -/
def findPatternMatchAux (alts : List (List String)) : Bool → List Char → Option (List Char)
  | _, [] => none
  | prev, c :: rest =>
    match (if prev then none else tryAltsAt alts (c :: rest)) with
    | some m => some m
    | none => findPatternMatchAux alts (isWordChar c) rest

/-- Model of `pattern.test(s)`. -/
def testPattern (alts : List (List String)) (s : String) : Bool :=
  (findPatternMatchAux alts false s.toList).isSome

/-- The `fieldPatterns` table of ocrService.js, in declaration order.
Each alternative is the list of its `\s*`-separated literal chunks. -/
def fieldPatterns : List (String × List (List String)) :=
  [ ("name", [["name"], ["full", "name"], ["first", "name"], ["last", "name"],
      ["middle", "name"], ["applicant", "name"], ["student", "name"],
      ["parent", "name"], ["guardian", "name"], ["surname"], ["given", "name"]]),
    ("email", [["email"], ["e-mail"], ["email", "address"], ["electronic", "mail"]]),
    ("phone", [["phone"], ["telephone"], ["mobile"], ["cell"],
      ["contact", "number"], ["phone", "number"], ["tel"], ["contact", "no"]]),
    ("address", [["address"], ["street"], ["residence"], ["location"], ["city"],
      ["state"], ["province"], ["zip"], ["postal", "code"], ["country"],
      ["pin", "code"]]),
    ("date", [["date"], ["dob"], ["birth", "date"], ["date", "of", "birth"],
      ["admission", "date"], ["enrollment", "date"], ["year"], ["month"], ["day"]]),
    ("ssn", [["ssn"], ["social", "security"], ["tax", "id"], ["national", "id"],
      ["id", "number"], ["identification"]]),
    ("gender", [["gender"], ["sex"], ["male"], ["female"]]),
    ("age", [["age"], ["years", "old"]]),
    ("grade", [["grade"], ["class"], ["standard"], ["level"], ["year"]]),
    ("school", [["school"], ["institution"], ["college"], ["university"],
      ["previous", "school"]]),
    ("parent", [["parent"], ["father"], ["mother"], ["guardian"],
      ["emergency", "contact"]]),
    ("occupation", [["occupation"], ["profession"], ["job"], ["employment"], ["work"]]),
    ("income", [["income"], ["salary"], ["annual", "income"]]),
    ("religion", [["religion"], ["caste"], ["category"]]),
    ("nationality", [["nationality"], ["citizenship"], ["country", "of", "origin"]]),
    ("signature", [["signature"], ["sign", "here"], ["applicant", "signature"],
      ["parent", "signature"]]),
    ("checkbox", [["check"], ["select"], ["tick"], ["mark"], ["yes"], ["no"],
      ["agree"], ["consent"]]),
    ("text", [["describe"], ["explain"], ["provide"], ["enter"], ["write"],
      ["details"], ["information"], ["remarks"], ["comments"]]) ]

/-- Scan for a chunk sequence anywhere, with no `\b` anchors (used for the
`/optional|if\s*applicable/i` test). -/
def findSeqAux (chunks : List (List Char)) : List Char → Bool
  | [] => (matchSeq chunks []).isSome
  | cs@(_ :: t) => (matchSeq chunks cs).isSome || findSeqAux chunks t

/-- Model of `/optional|if\s*applicable/i.test(line)`. -/
def hasOptionalMarker (line : String) : Bool :=
  findSeqAux ["optional".toList] line.toList ||
  findSeqAux ["if".toList, "applicable".toList] line.toList

/-- The type-classification loop of Strategy 1: first pattern in table order
matching the label or the whole line wins; default "text". -/
def classify (label line : String) : String :=
  (fieldPatterns.find? (fun p => testPattern p.2 label || testPattern p.2 line)).elim
    "text" (fun p => p.1)

/-! ## FieldExtractor: `detectFormFields` in ocrService.js -/

/-- A word with its OCR bounding box (Tesseract `result.data.words`). -/
structure WordBox where
  text : String
  x0 : ℚ
  y0 : ℚ
  x1 : ℚ
  y1 : ℚ
  deriving Repr, DecidableEq

/-- The anchor/input coordinates attached to a detected field. -/
structure Coordinates where
  x : ℚ
  y : ℚ
  width : ℚ
  height : ℚ
  inputX : ℚ
  inputY : ℚ
  deriving Repr, DecidableEq

/-- One detected form field. -/
structure FormField where
  id : String
  label : String
  type : String
  required : Bool
  value : Option String
  position : Option ℕ
  coordinates : Option Coordinates
  pdfFieldName : Option String
  deriving Repr, DecidableEq

/-- The character class of `/[:_\[\]()\.\s{2,}]/` (also used by the `split`
in Strategy 1).  Inside a character class `{2,}` is the four literal
characters, so the class admits a brace, the digit 2, a comma, a closing
brace, any whitespace, and the punctuation listed. -/
def indicatorClassChar (c : Char) : Bool :=
  c = ':' || c = '_' || c = '[' || c = ']' || c = '(' || c = ')' || c = '.' ||
  isJsWhitespace c || c = '{' || c = '2' || c = ',' || c = '}'

/-- Model of `hasFieldIndicator = /[:_\[\]()\.\s{2,}]/.test(line)`. -/
def hasFieldIndicator (line : String) : Bool :=
  line.toList.any indicatorClassChar

/-- Model of `hasFieldEnding`: `/[:\-_\.]{1,}$/.test(line) || /_{3,}/.test(line)
|| /\.{3,}/.test(line)` — the last character is `:`/`-`/`_`/`.`, or the line
contains a run of three underscores or of three dots. -/
def hasFieldEnding (line : String) : Bool :=
  (line.toList.getLast?).any (fun c => c = ':' || c = '-' || c = '_' || c = '.') ||
  hasRun3 '_' line.toList || hasRun3 '.' line.toList

/-- Model of `label.replace(/^[\d\.\-\)]+\s*/, '')`. -/
def stripLeadingEnum (label : String) : String :=
  let isEnumChar := fun c => Char.isDigit c || c = '.' || c = '-' || c = ')'
  match label.toList with
  | [] => label
  | c :: _ =>
    if isEnumChar c then
      String.mk ((label.toList.dropWhile isEnumChar).dropWhile isJsWhitespace)
    else label

/-- Model of `label.replace(/\*+$/, '')`. -/
def stripTrailingAsterisks (label : String) : String :=
  String.mk ((label.toList.reverse.dropWhile (fun c => c = '*')).reverse)

/-- Model of `label.replace(/[:\-_\.\*]+$/, '')` (Strategy 2 cleanup). -/
def stripTrailingPunct (label : String) : String :=
  String.mk ((label.toList.reverse.dropWhile
    (fun c => c = ':' || c = '-' || c = '_' || c = '.' || c = '*')).reverse)

/-- The `skipWords` anchored alternation: full-string case-insensitive
equality with one of the listed words. -/
def isSkipWord (label : String) : Bool :=
  ["section", "part", "page", "form", "instructions", "note", "please",
   "kindly", "total", "subtotal", "amount", "the", "and", "or", "for", "to",
   "in", "of", "is", "are", "was", "were"].contains (lowerStr label)

/-- Model of `findCoordinatesForLabel(label, words)` for genuine word boxes:
first word whose lowercased text contains some whitespace-split token of the
lowercased label, turned into an anchor box and input point. -/
def findCoordinatesForLabel (label : String) (words : List WordBox) : Option Coordinates :=
  if words.length = 0 then none
  else
    let labelWords := jsSplitWs (lowerStr label)
    match words.find? (fun w =>
        labelWords.any (fun lw => containsSub lw.toList (lowerStr w.text).toList)) with
    | none => none
    | some w =>
      some { x := w.x0, y := w.y0, width := w.x1 - w.x0, height := w.y1 - w.y0,
             inputX := w.x1 + 10, inputY := w.y0 }

/-- The mutable state of `detectFormFields`: the `fields` array and the
`foundFields` set (kept as the list of lowercased labels added so far). -/
structure DetectState where
  fields : List FormField
  found : List String
  deriving Repr, DecidableEq

/-- Model of `fields.push({id: field_(fields.length+1), ...})` plus
`foundFields.add(label.toLowerCase())`. -/
def pushField (st : DetectState) (label ty : String) (req : Bool) (pos : ℕ)
    (coords : Option Coordinates) : DetectState :=
  { fields := st.fields ++
      [{ id := "field_" ++ toString (st.fields.length + 1), label := label,
         type := ty, required := req, value := none, position := some pos,
         coordinates := coords, pdfFieldName := none }],
    found := st.found ++ [lowerStr label] }

/-- Strategy 1 on one line: all guards of the source, returning the data of
the field to push (label, type, required, coordinates), or `none`. -/
def strategy1Detect (words : List WordBox) (st : DetectState) (line : String) :
    Option (String × String × Bool × Option Coordinates) :=
  if line.length < 2 || 150 < line.length then none
  else if hasFieldIndicator line || hasFieldEnding line then
    let label0 := jsTrim (String.mk (line.toList.takeWhile (fun c => !indicatorClassChar c)))
    let label1 := stripLeadingEnum label0
    let label2 := stripTrailingAsterisks label1
    if label2.length < 2 || 80 < label2.length || st.found.contains (lowerStr label2) then none
    else if isSkipWord label2 then none
    else some (label2, classify label2 line, !hasOptionalMarker line,
               findCoordinatesForLabel label2 words)
  else none

/-- Strategy 1 on one line, updating the state (`index` is the line index,
stored as `position`). -/
def strategy1Step (words : List WordBox) (st : DetectState) (line : String)
    (index : ℕ) : DetectState :=
  match strategy1Detect words st line with
  | none => st
  | some (label, ty, req, coords) => pushField st label ty req index coords

/-- Strategy 1 over the line list. -/
def strategy1Go (words : List WordBox) : DetectState → ℕ → List String → DetectState
  | st, _, [] => st
  | st, i, l :: ls => strategy1Go words (strategy1Step words st l i) (i + 1) ls

/-- Strategy 2 calls `findCoordinatesForLabel(label, words)` where `words`
is the shadowing `line.split(/\s+/)` — an array of strings.  The callee
evaluates `word.text.toLowerCase()`; on a string, `word.text` is `undefined`,
so any nonempty array throws a TypeError. -/
def findCoordinatesOnStrings (_label : String) (ws : List String) :
    Except String (Option Coordinates) :=
  if ws.length = 0 then .ok none
  else .error "TypeError: word.text is undefined"

/-- The Strategy 2 pattern loop on one line: first pattern whose test
succeeds and whose cleaned label passes the length/dedup guards yields a
field (or the TypeError from the coordinates call); a pattern whose label
fails the guards falls through to the next pattern. -/
def s2Go : List (String × List (List String)) → DetectState → String →
    Except String (Option (String × String × Option Coordinates))
  | [], _, _ => .ok none
  | (t, alts) :: rest, st, line =>
    match findPatternMatchAux alts false line.toList with
    | none => s2Go rest st line
    | some m =>
      let label0 := jsTrim (String.mk m)
      let lineWords := jsSplitWs line
      let label1 :=
        match lineWords.findIdx? (fun w => testPattern alts w) with
        | some mi =>
          if mi + 1 < lineWords.length then
            String.intercalate " " ((lineWords.drop mi).take (min 3 (lineWords.length - mi)))
          else label0
        | none => label0
      let label2 := jsTrim (stripTrailingPunct label1)
      if 2 ≤ label2.length && !(st.found.contains (lowerStr label2)) then
        match findCoordinatesOnStrings label2 lineWords with
        | .error e => .error e
        | .ok coords => .ok (some (label2, t, coords))
      else s2Go rest st line

/-- Strategy 2 on one line: length guards, then the pattern loop; a found
field is pushed with `required = (type differs from "text")`. -/
def strategy2Step (st : DetectState) (line : String) (index : ℕ) :
    Except String DetectState :=
  if line.length < 3 || 100 < line.length then .ok st
  else
    match s2Go fieldPatterns st line with
    | .error e => .error e
    | .ok none => .ok st
    | .ok (some (label, ty, coords)) =>
      .ok (pushField st label ty (ty ≠ "text") index coords)

/-- Strategy 2 over the line list. -/
def strategy2Go : DetectState → ℕ → List String → Except String DetectState
  | st, _, [] => .ok st
  | st, i, l :: ls =>
    match strategy2Step st l i with
    | .error e => .error e
    | .ok st2 => strategy2Go st2 (i + 1) ls

/-- The fixed generic fallback schema of `detectFormFields`. -/
def genericFields : List FormField :=
  [ { id := "field_1", label := "Full Name", type := "name", required := true,
      value := none, position := none, coordinates := none, pdfFieldName := none },
    { id := "field_2", label := "Email Address", type := "email", required := true,
      value := none, position := none, coordinates := none, pdfFieldName := none },
    { id := "field_3", label := "Phone Number", type := "phone", required := true,
      value := none, position := none, coordinates := none, pdfFieldName := none },
    { id := "field_4", label := "Address", type := "address", required := false,
      value := none, position := none, coordinates := none, pdfFieldName := none },
    { id := "field_5", label := "Date", type := "date", required := true,
      value := none, position := none, coordinates := none, pdfFieldName := none } ]

/-- Split a character list at each newline (JS `text.split('\n')`). -/
def splitOnNl : List Char → List (List Char)
  | [] => [[]]
  | c :: cs =>
    if c = '\n' then [] :: splitOnNl cs
    else
      match splitOnNl cs with
      | [] => [[c]]
      | h :: t => (c :: h) :: t

/-- The non-blank trimmed lines of the text:
`text.split('\n').map(trim).filter(length > 0)`. -/
def linesOf (text : String) : List String :=
  (((splitOnNl text.toList).map (fun cs => jsTrim (String.mk cs)))).filter
    (fun l => 0 < l.length)

/-- The two detection passes of `detectFormFields` (Strategy 2 runs only when
Strategy 1 found fewer than 5 fields). -/
def detectPasses (text : String) (words : List WordBox) : Except String DetectState :=
  if (strategy1Go words ⟨[], []⟩ 0 (linesOf text)).fields.length < 5 then
    strategy2Go (strategy1Go words ⟨[], []⟩ 0 (linesOf text)) 0 (linesOf text)
  else .ok (strategy1Go words ⟨[], []⟩ 0 (linesOf text))

/-- Shallow embedding of `detectFormFields(text, words)`: the two passes,
then the generic fallback when no field was detected. -/
def detectFormFields (text : String) (words : List WordBox) :
    Except String (List FormField) :=
  match detectPasses text words with
  | .error e => .error e
  | .ok st => if st.fields.length = 0 then .ok genericFields else .ok st.fields

/-! ## Native PDF form extraction: `extractPDFFormFields` in ocrService.js -/

/-- One native interactive control, as pdf-lib exposes it: its name and its
runtime constructor name. -/
structure PDFFormControl where
  name : String
  kind : String
  deriving Repr, DecidableEq

/-- The type-inference chain of `extractPDFFormFields`: checkbox/radio map to
checkbox, dropdown to text, and a text field's type is inferred from
substring tests on the lowercased name (`/email|e-mail/`, `/phone|tel|mobile/`,
`/date|dob|birth/`, `/name/`, `/address|street|city|state|zip/`). -/
def inferPdfFieldType (kind nameL : String) : String :=
  if kind = "PDFCheckBox" then "checkbox"
  else if kind = "PDFRadioGroup" then "checkbox"
  else if kind = "PDFDropdown" then "text"
  else if kind = "PDFTextField" then
    if containsSub "email".toList nameL.toList || containsSub "e-mail".toList nameL.toList then "email"
    else if containsSub "phone".toList nameL.toList || containsSub "tel".toList nameL.toList ||
            containsSub "mobile".toList nameL.toList then "phone"
    else if containsSub "date".toList nameL.toList || containsSub "dob".toList nameL.toList ||
            containsSub "birth".toList nameL.toList then "date"
    else if containsSub "name".toList nameL.toList then "name"
    else if containsSub "address".toList nameL.toList || containsSub "street".toList nameL.toList ||
            containsSub "city".toList nameL.toList || containsSub "state".toList nameL.toList ||
            containsSub "zip".toList nameL.toList then "address"
    else "text"
  else "text"

/-- Model of `replace(/([A-Z])/g, ' $1')`: a space before each uppercase. -/
def spaceBeforeCaps (cs : List Char) : List Char :=
  cs.foldr (fun c acc => if c.isUpper then ' ' :: c :: acc else c :: acc) []

/-- The display-label cleanup of `extractPDFFormFields`: space before
capitals, underscores to spaces, whitespace runs collapsed, trim,
capitalize the first letter. -/
def pdfLabel (name : String) : String :=
  capitalizeFirst (jsTrim (String.mk (normalizeWs
    ((spaceBeforeCaps name.toList).map (fun c => if c = '_' then ' ' else c)))))

/-- One extracted native field (index is the 0-based position in the form). -/
def mkPdfField (index : ℕ) (c : PDFFormControl) : FormField :=
  { id := "field_" ++ toString (index + 1), label := pdfLabel c.name,
    type := inferPdfFieldType c.kind (lowerStr c.name), required := true,
    value := none, position := some index, coordinates := none,
    pdfFieldName := some c.name }

/-- The `formFields.map((field, index) => ...)` loop. -/
def pdfFieldsGo (i : ℕ) : List PDFFormControl → List FormField
  | [] => []
  | c :: cs => mkPdfField i c :: pdfFieldsGo (i + 1) cs

/-- Shallow embedding of `extractPDFFormFields`: `none` when the form exposes
zero controls (the source returns null), otherwise the mapped field list. -/
def extractPDFFormFields (controls : List PDFFormControl) : Option (List FormField) :=
  if controls.length = 0 then none
  else some (pdfFieldsGo 0 controls)

/-! ## Session store (`sessionStore.js`) and the `/chat` transition
(formRoutes.js).  The `createdAt` timestamp of a session is real time and is
omitted from the model. -/

/-- The schema data the fill and chat paths read (`formSchema`). -/
structure FormSchemaS where
  fields : List FormField
  imageWidth : Option ℚ
  imageHeight : Option ℚ
  deriving Repr, DecidableEq

/-- One stored session. -/
structure StoreSession where
  sessionId : String
  formSchema : FormSchemaS
  filledFields : List (String × String)
  conversationHistory : List (String × String)
  currentFieldIndex : ℕ
  isComplete : Bool
  originalFilePath : Option String
  deriving Repr, DecidableEq

/-- The store: a `Map` from session id to session. -/
abbrev Store := List (String × StoreSession)

/-- Model of JS object property assignment `obj[key] = value`: update the
key in place when present (object keys are unique), else append it. -/
def setValue : List (String × String) → String → String → List (String × String)
  | [], k, v => [(k, v)]
  | p :: t, k, v => if p.1 = k then (k, v) :: t else p :: setValue t k v

/-- Model of JS object property read `obj[key]`. -/
def lookupValue (m : List (String × String)) (k : String) : Option String :=
  (m.find? (fun p => p.1 = k)).map (fun p => p.2)

/-- Model of `sessions.get(sessionId) || null`. -/
def getSession (st : Store) (id : String) : Option StoreSession :=
  (st.find? (fun p => p.1 = id)).map (fun p => p.2)

/-- Replace the stored session under `id` (a mutation of the aliased session
object is visible through the map). -/
def setSessionEntry (st : Store) (id : String) (s : StoreSession) : Store :=
  st.map (fun p => if p.1 = id then (p.1, s) else p)

/-- Model of `SessionStore.createSession`. -/
def createSession (st : Store) (id : String) (schema : FormSchemaS) : Store :=
  st ++ [(id, { sessionId := id, formSchema := schema, filledFields := [],
                conversationHistory := [], currentFieldIndex := 0,
                isComplete := false, originalFilePath := none })]

/-- Model of `SessionStore.updateField`: no-op when the id is absent. -/
def updateField (st : Store) (id fieldName value : String) : Store :=
  match getSession st id with
  | none => st
  | some s => setSessionEntry st id
      { s with filledFields := setValue s.filledFields fieldName value }

/-- Model of `SessionStore.addMessage` (timestamp omitted). -/
def addMessage (st : Store) (id role content : String) : Store :=
  match getSession st id with
  | none => st
  | some s => setSessionEntry st id
      { s with conversationHistory := s.conversationHistory ++ [(role, content)] }

/-- Model of `SessionStore.setCurrentFieldIndex`. -/
def setCurrentFieldIndex (st : Store) (id : String) (index : ℕ) : Store :=
  match getSession st id with
  | none => st
  | some s => setSessionEntry st id { s with currentFieldIndex := index }

/-- Model of `SessionStore.markComplete`. -/
def markComplete (st : Store) (id : String) : Store :=
  match getSession st id with
  | none => st
  | some s => setSessionEntry st id { s with isComplete := true }

/-- Model of `SessionStore.setOriginalFilePath`. -/
def setOriginalFilePath (st : Store) (id : String) (filePath : String) : Store :=
  match getSession st id with
  | none => st
  | some s => setSessionEntry st id { s with originalFilePath := some filePath }

/-- Model of `SessionStore.deleteSession` (`Map.delete`). -/
def deleteSession (st : Store) (id : String) : Store :=
  st.filter (fun p => !(p.1 = id))

/-- The JSON response of the `/chat` route. -/
structure ChatResponse where
  question : String
  fieldId : Option String
  fieldLabel : Option String
  fieldType : Option String
  isComplete : Bool
  validationError : Bool
  deriving Repr, DecidableEq

/-- The fixed completion response of the route. -/
def completeResponse : ChatResponse :=
  { question := "Great! All fields have been filled successfully. You can now export your completed form as a PDF.",
    fieldId := none, fieldLabel := none, fieldType := none,
    isComplete := true, validationError := false }

/-- Shallow embedding of the session transition performed by
`router.post('/chat')` on an existing session: `stringify` stands for
`JSON.stringify` and `gen` for the external `generateNextQuestion`
collaborator (the route awaits it when the form is not yet complete).
The transition returns the updated session and the JSON response. -/
def chatStep (stringify : ChatResponse → String)
    (gen : StoreSession → String → ChatResponse)
    (s : StoreSession) (message : String) : StoreSession × ChatResponse :=
  let s1 := { s with conversationHistory := s.conversationHistory ++ [("user", message)] }
  match s1.formSchema.fields.get? s1.currentFieldIndex with
  | some currentField =>
    let validation := validateFieldValue currentField.type message
    if validation.valid = false then
      let resp : ChatResponse :=
        { question := validation.message ++ ". Please try again: " ++ currentField.label,
          fieldId := some currentField.id, fieldLabel := some currentField.label,
          fieldType := some currentField.type, isComplete := false,
          validationError := true }
      ({ s1 with conversationHistory := s1.conversationHistory ++ [("assistant", stringify resp)] },
       resp)
    else
      let s2 := { s1 with filledFields := setValue s1.filledFields currentField.id message }
      let nextIndex := s2.currentFieldIndex + 1
      let s3 := { s2 with currentFieldIndex := nextIndex }
      if s3.formSchema.fields.length ≤ nextIndex then
        let s4 := { s3 with isComplete := true }
        ({ s4 with conversationHistory := s4.conversationHistory ++ [("assistant", stringify completeResponse)] },
         completeResponse)
      else
        let resp := gen s3 message
        ({ s3 with conversationHistory := s3.conversationHistory ++ [("assistant", stringify resp)] },
         resp)
  | none =>
    let resp := gen s1 message
    ({ s1 with conversationHistory := s1.conversationHistory ++ [("assistant", stringify resp)] },
     resp)

/-! ## DocumentFillEngine: pdfService.js -/

/-- One native control as the fill engine sees it, including its current
value/checked state. -/
structure NativeControl where
  name : String
  kind : String
  options : List String
  value : Option String
  checked : Bool
  deriving Repr, DecidableEq

/-- One text draw operation on the page. -/
structure DrawOp where
  text : String
  x : ℚ
  y : ℚ
  size : ℚ
  italic : Bool
  deriving Repr, DecidableEq

/-- A loaded PDF document: its controls, its first page's size, the overlay
operations drawn so far, and whether the form was flattened. -/
structure PdfDoc where
  controls : List NativeControl
  pageWidth : ℚ
  pageHeight : ℚ
  drawn : List DrawOp
  flattened : Bool
  metaStamped : Bool
  deriving Repr, DecidableEq

/-- The truthy token set for checkbox values:
`['yes','true','1','checked','x'].includes(value.toLowerCase())`. -/
def truthyCheckValue (v : String) : Bool :=
  ["yes", "true", "1", "checked", "x"].contains (lowerStr v)

/-- The draw position chosen by `fillScannedForm` for one field: scale the
OCR input point into page space (falling back to the page's own dimensions
when the schema has none), inverting the vertical axis; without coordinates,
the fixed-column fallback `x = 150`, `y = (height - 150) - index * 25`. -/
def scannedPos (coords : Option Coordinates) (imageWidth imageHeight : Option ℚ)
    (pageW pageH : ℚ) (index : ℕ) : ℚ × ℚ :=
  match coords with
  | some c =>
    let iw := imageWidth.getD pageW
    let ih := imageHeight.getD pageH
    (c.inputX * (pageW / iw), pageH - c.inputY * (pageH / ih))
  | none => (150, (pageH - 150) - index * 25)

/-- The character-dropping truncation loop (`while widthOf(text + '...') >
maxWidth && text.length > 0`); `widthOf` stands for the external
`font.widthOfTextAtSize`. -/
def truncateLoopFuel (widthOf : String → ℚ → ℚ) (maxWidth fontSize : ℚ) :
    ℕ → List Char → List Char
  | _, [] => []
  | 0, cs => cs
  | fuel + 1, c :: cs =>
    if maxWidth < widthOf (String.mk (c :: cs) ++ "...") fontSize then
      truncateLoopFuel widthOf maxWidth fontSize fuel ((c :: cs).dropLast)
    else c :: cs

/-- The loop with fuel equal to the initial length, which the loop can never
exhaust since each iteration drops exactly one character. -/
def truncateLoop (widthOf : String → ℚ → ℚ) (maxWidth fontSize : ℚ)
    (cs : List Char) : List Char :=
  truncateLoopFuel widthOf maxWidth fontSize cs.length cs

/-- The display text drawn for a regular field: truncated with a trailing
ellipsis when it would not fit the remaining width. -/
def displayTextOf (widthOf : String → ℚ → ℚ) (maxWidth : ℚ) (value : String) : String :=
  if maxWidth < widthOf value 10 then
    String.mk (truncateLoop widthOf maxWidth 10 value.toList) ++ "..."
  else value

/-- The draw operations of `fillScannedForm` for one field (skipped when the
recorded value is missing or the empty string, both falsy in the source). -/
def scannedFieldOps (widthOf : String → ℚ → ℚ) (schema : FormSchemaS)
    (values : List (String × String)) (pageW pageH : ℚ)
    (field : FormField) (index : ℕ) : List DrawOp :=
  match lookupValue values field.id with
  | none => []
  | some v =>
    if v = "" then []
    else
      let pos := scannedPos field.coordinates schema.imageWidth schema.imageHeight pageW pageH index
      if field.type = "checkbox" then
        if truthyCheckValue v then [⟨"✓", pos.1, pos.2, 12, false⟩] else []
      else if field.type = "signature" then
        [⟨v, pos.1, pos.2, 12, true⟩]
      else
        [⟨displayTextOf widthOf (pageW - pos.1 - 50) v, pos.1, pos.2, 10, false⟩]

/-- The field loop of `fillScannedForm`. -/
def scannedOpsGo (widthOf : String → ℚ → ℚ) (schema : FormSchemaS)
    (values : List (String × String)) (pageW pageH : ℚ) (i : ℕ) :
    List FormField → List DrawOp
  | [] => []
  | f :: fs => scannedFieldOps widthOf schema values pageW pageH f i ++
      scannedOpsGo widthOf schema values pageW pageH (i + 1) fs

/-- Shallow embedding of `fillScannedForm(pdfDoc, formSchema, filledFields)`:
draws the overlay operations onto the document; the schema and values are
only read (the source contains no assignment through them), so they are
threaded back unchanged. -/
def fillScannedForm (widthOf : String → ℚ → ℚ) (doc : PdfDoc)
    (schema : FormSchemaS) (values : List (String × String)) :
    PdfDoc × FormSchemaS × List (String × String) :=
  ({ doc with drawn := doc.drawn ++
      scannedOpsGo widthOf schema values doc.pageWidth doc.pageHeight 0 schema.fields },
   schema, values)

/-- The per-kind control update of `fillInteractivePDFForm` (a pdf-lib
`select` with an unknown option throws and is swallowed by the per-field
try/catch, leaving the control unchanged). -/
def applyValueToControl (c : NativeControl) (value : String) : NativeControl :=
  if c.kind = "PDFTextField" then { c with value := some value }
  else if c.kind = "PDFCheckBox" then
    if truthyCheckValue value then { c with checked := true } else c
  else if c.kind = "PDFRadioGroup" then
    match c.options.find? (fun o => lowerStr o = lowerStr value) with
    | some o => { c with value := some o }
    | none => c
  else if c.kind = "PDFDropdown" then
    if c.options.contains value then { c with value := some value } else c
  else c

/-- The loose label match: the control name contains the field label or the
label contains the name, case-insensitively. -/
def nameMatches (c : NativeControl) (label : String) : Bool :=
  containsSub (lowerStr label).toList (lowerStr c.name).toList ||
  containsSub (lowerStr c.name).toList (lowerStr label).toList

/-- Apply the value to the first matching control (`formFields.find`). -/
def applyToFirstMatching (label v : String) : List NativeControl → List NativeControl
  | [] => []
  | c :: cs =>
    if nameMatches c label then applyValueToControl c v :: cs
    else c :: applyToFirstMatching label v cs

/-- Shallow embedding of `fillInteractivePDFForm(pdfDoc, formSchema,
filledFields)`: `false` (document untouched) when the form exposes zero
controls; otherwise each schema field with a truthy value is written into
the first matching control and the form is flattened.  Schema and values
are only read and are threaded back unchanged. -/
def fillInteractivePDFForm (doc : PdfDoc) (schema : FormSchemaS)
    (values : List (String × String)) :
    PdfDoc × Bool × FormSchemaS × List (String × String) :=
  if doc.controls.length = 0 then (doc, false, schema, values)
  else
    let controls := schema.fields.foldl (fun ctrls field =>
      match lookupValue values field.id with
      | none => ctrls
      | some v => if v = "" then ctrls else applyToFirstMatching field.label v ctrls)
      doc.controls
    ({ doc with controls := controls, flattened := true }, true, schema, values)

/-- The source document handed to the export: a PDF, or an image with its
pixel dimensions (the raster bytes themselves are external I/O). -/
inductive SourceDoc where
  | pdf (doc : PdfDoc)
  | image (w h : ℚ)
  deriving Repr, DecidableEq

/-- Metadata stamping (`setTitle`/`setAuthor`/`setCreationDate`). -/
def stampMeta (doc : PdfDoc) : PdfDoc :=
  { doc with metaStamped := true }

/-- A fresh letter-sized page for an image source. -/
def letterPageDoc : PdfDoc :=
  { controls := [], pageWidth := 612, pageHeight := 792, drawn := [],
    flattened := false, metaStamped := false }

/-- Shallow embedding of `generateFilledPDF` (pdfService.js enhanced
version): for a PDF, try the interactive fill and fall back to the scanned
overlay; for an image, draw onto a fresh letter page (the image placement
itself is pixel I/O and does not touch schema or values); stamp metadata.
Returns the produced document together with the schema and values as the
caller's objects stand after the call. -/
def generateFilledPDF (widthOf : String → ℚ → ℚ) (src : SourceDoc)
    (schema : FormSchemaS) (values : List (String × String)) :
    PdfDoc × FormSchemaS × List (String × String) :=
  match src with
  | .pdf doc =>
    let r1 := fillInteractivePDFForm doc schema values
    if r1.2.1 then (stampMeta r1.1, r1.2.2.1, r1.2.2.2)
    else
      let r2 := fillScannedForm widthOf r1.1 r1.2.2.1 r1.2.2.2
      (stampMeta r2.1, r2.2.1, r2.2.2)
  | .image _ _ =>
    let r2 := fillScannedForm widthOf letterPageDoc schema values
    (stampMeta r2.1, r2.2.1, r2.2.2)

/-- The trailing-run predicate of the spec text for claim C6: the line ends
in a run of at least three dots, dashes or underscores. -/
def trailingRun3 (line : String) : Bool :=
  3 ≤ (line.toList.reverse.takeWhile
    (fun c => c = '.' || c = '-' || c = '_')).length

/-- The indicator predicate claim C6 asserts, modelled from the spec words:
a colon, an underscore, a bracket or parenthesis, or a trailing run of at
least three dots, dashes or underscores. -/
def specC6Indicator (line : String) : Bool :=
  line.toList.any (fun c =>
    c = ':' || c = '_' || c = '[' || c = ']' || c = '(' || c = ')') ||
  trailingRun3 line

/-- The contiguous-ids invariant asserted by claim C3: the fields of a list
carry ids `field_1 .. field_n` in order. -/
def idsOk (fs : List FormField) : Prop :=
  fs.map (fun f => f.id) =
    (List.range fs.length).map (fun i => "field_" ++ toString (i + 1))

/-- A three-field demo schema for the claim C1 scenario (three plain text
fields, so that any non-blank answer validates). -/
def demoSession3 : StoreSession :=
  { sessionId := "s1",
    formSchema := ⟨[
      ⟨"field_1", "First", "text", true, none, none, none, none⟩,
      ⟨"field_2", "Second", "text", true, none, none, none, none⟩,
      ⟨"field_3", "Third", "text", true, none, none, none, none⟩], none, none⟩,
    filledFields := [], conversationHistory := [], currentFieldIndex := 0,
    isComplete := false, originalFilePath := none }

/-- A one-email-field demo session, used to witness the invalid-answer
branch of claim C1. -/
def demoEmailSession : StoreSession :=
  { sessionId := "s2",
    formSchema := ⟨[⟨"field_1", "Email", "email", true, none, none, none, none⟩],
      none, none⟩,
    filledFields := [], conversationHistory := [], currentFieldIndex := 0,
    isComplete := false, originalFilePath := none }

/-- A fixed stringifier standing in for `JSON.stringify` in witnesses. -/
def enc0 : ChatResponse → String := fun r => r.question

/-- A fixed question generator standing in for the external AI collaborator
in witnesses. -/
def gen0 : StoreSession → String → ChatResponse :=
  fun _ _ => ⟨"next", none, none, none, false, false⟩

/-- A one-session demo store, used to witness claim C10. -/
def demoStore : Store :=
  [("sid-a", demoSession3)]

/-! ## Claim theorems -/

/-- Claim C4, counterexample: the phone validator accepts
`"123-456-789"`, which contains only nine digits, because the source regex
`^[\d\s\-\+\(\)]{10,}$` counts characters of the class, not digits.  This
refutes the claim that acceptance requires at least ten digits. -/
theorem phone_nine_digits_accepted :
    (validateFieldValue "phone" "123-456-789").valid = true ∧
    ("123-456-789".toList.filter Char.isDigit).length < 10 := by
  exact ⟨by with_unfolding_all rfl, by with_unfolding_all decide⟩

/-- Claim C4, amended: `validate('phone', v)` accepts `v` iff `v` does not
trim to the empty string, has at least ten characters in total, and every
character is a digit, whitespace, hyphen, plus or parenthesis. -/
theorem validate_phone_characterization (v : String) :
    (validateFieldValue "phone" v).valid = true ↔
    (jsTrim v ≠ "" ∧ 10 ≤ v.length ∧ v.toList.all isPhoneChar = true) := by
  unfold validateFieldValue
  split
  · next h =>
    simp only [Bool.or_eq_true, decide_eq_true_eq] at h
    have htrim : jsTrim v = "" := by
      rcases h with h | h
      · rw [h]; rfl
      · cases heq : jsTrim v with
        | mk data => rw [heq] at h; cases data with
          | nil => rfl
          | cons c cs => simp [String.length] at h
    simp [htrim]
  · next h =>
    simp only [Bool.or_eq_true, decide_eq_true_eq, not_or] at h
    have htrim : jsTrim v ≠ "" := by
      intro hcon
      exact h.2 (by rw [hcon]; rfl)
    rw [if_neg (by simp : ¬ (("phone" : String) = "email")), if_pos rfl]
    unfold phoneTest
    split
    · next hp =>
      simp only [Bool.and_eq_true, decide_eq_true_eq] at hp
      exact ⟨fun _ => ⟨htrim, hp.1, hp.2⟩, fun _ => rfl⟩
    · next hp =>
      simp only [Bool.and_eq_true, decide_eq_true_eq, not_and_or] at hp
      constructor
      · intro hcon; exact absurd hcon (by simp)
      · rintro ⟨-, h10, hall⟩
        rcases hp with hp | hp
        · exact absurd h10 hp
        · exact absurd hall hp

/-- Claim C5: every type rejects input that trims to empty;
`validate('email','a@b.com')` is valid; `validate('email','not-an-email')`
is invalid; every type outside email/phone/date/ssn accepts any input that
does not trim to empty. -/
theorem validate_empty_email_default (t v : String) :
    (jsTrim v = "" → (validateFieldValue t v).valid = false) ∧
    (validateFieldValue "email" "a@b.com").valid = true ∧
    (validateFieldValue "email" "not-an-email").valid = false ∧
    (t ≠ "email" → t ≠ "phone" → t ≠ "date" → t ≠ "ssn" → jsTrim v ≠ "" →
      (validateFieldValue t v).valid = true) := by
  refine ⟨?_, by with_unfolding_all rfl, by with_unfolding_all rfl, ?_⟩
  · intro h
    have hlen : (jsTrim v).length = 0 := by rw [h]; rfl
    unfold validateFieldValue
    rw [if_pos (by simp [hlen])]
  · intro h1 h2 h3 h4 h5
    have hlen : (jsTrim v).length ≠ 0 := by
      intro hcon
      apply h5
      cases heq : jsTrim v with
      | mk data => rw [heq] at hcon; cases data with
        | nil => rfl
        | cons c cs => simp [String.length] at hcon
    have hv : v ≠ "" := by
      intro hcon
      exact h5 (by rw [hcon]; rfl)
    unfold validateFieldValue
    rw [if_neg (by simp [hv, hlen]), if_neg h1, if_neg h2, if_neg h3, if_neg h4]

/-- Witness for C5 at concrete inputs: a type outside the four validated
ones accepts a plain string, and the email validator rejects the empty
string. -/
theorem validate_empty_email_default_witness :
    (validateFieldValue "gender" "x").valid = true ∧
    (validateFieldValue "email" "").valid = false := by
  constructor
  · exact (validate_empty_email_default "gender" "x").2.2.2
      (by decide) (by decide) (by decide) (by decide)
      (by intro h; exact absurd h (by with_unfolding_all decide))
  · exact (validate_empty_email_default "email" "").1 (by with_unfolding_all rfl)

/-- Claim C6, counterexample: the line `"Hello World"` has length in
[2,150] and none of the indicators the claim lists, yet the source guard
`hasFieldIndicator || hasFieldEnding` is true (a plain space is in the
character class of `/[:_\[\]()\.\s{2,}]/`), and the primary pass extracts a
field labelled `"Hello"` from it. -/
theorem indicator_space_counterexample :
    (2 ≤ ("Hello World" : String).length ∧ ("Hello World" : String).length ≤ 150) ∧
    specC6Indicator "Hello World" = false ∧
    (hasFieldIndicator "Hello World" || hasFieldEnding "Hello World") = true ∧
    strategy1Go [] ⟨[], []⟩ 0 (linesOf "Hello World") =
      ⟨[{ id := "field_1", label := "Hello", type := "text", required := true,
          value := none, position := some 0, coordinates := none,
          pdfFieldName := none }], ["hello"]⟩ := by
  exact ⟨⟨by decide, by decide⟩, by with_unfolding_all rfl,
    by with_unfolding_all rfl, by with_unfolding_all rfl⟩

/-- Claim C6, amended: a line proceeds to label extraction in the primary
pass iff it contains a character of the class of `/[:_\[\]()\.\s{2,}]/`
(colon, underscore, bracket, parenthesis, dot, any whitespace, brace, the
digit 2, comma, closing brace), or its last character is a colon, hyphen,
underscore or dot, or it contains a run of three underscores or three dots;
a line failing this guard (or the length window) yields no field. -/
theorem line_indicator_characterization :
    (∀ line : String,
      (hasFieldIndicator line || hasFieldEnding line) = true ↔
      ((∃ c ∈ line.toList, indicatorClassChar c = true) ∨
       (∃ c, line.toList.getLast? = some c ∧ (c = ':' ∨ c = '-' ∨ c = '_' ∨ c = '.')) ∨
       hasRun3 '_' line.toList = true ∨ hasRun3 '.' line.toList = true)) ∧
    (∀ (words : List WordBox) (st : DetectState) (line : String),
      (hasFieldIndicator line || hasFieldEnding line) = false →
      strategy1Detect words st line = none) := by
  constructor
  · intro line
    unfold hasFieldIndicator hasFieldEnding
    cases h : line.toList.getLast? with
    | none =>
      simp [h, List.any_eq_true]
    | some c =>
      simp [h, List.any_eq_true, Option.any, Bool.or_eq_true, decide_eq_true_eq]
      aesop
  · intro words st line h
    unfold strategy1Detect
    split
    · rfl
    · rw [if_neg (by simp [h])]

/-- Witness for the C6 amended theorem: the guard-false branch at a
concrete line. -/
theorem line_indicator_characterization_witness :
    strategy1Detect [] ⟨[], []⟩ "zz" = none :=
  line_indicator_characterization.2 [] ⟨[], []⟩ "zz" (by with_unfolding_all rfl)

/-- Claim C7 (code bug): on the documented text
`"Full Name: ____\nEmail Address: ____"` the extractor does not return two
fields - it throws.  The primary pass splits each line at the first class
character (a space), producing labels `"Full"` and `"Email"`; since fewer
than five fields were found, the secondary pass runs and, at its first new
label, passes the line's `split(/\s+/)` string array to
`findCoordinatesForLabel`, which dereferences `word.text` on a string and
raises a TypeError. -/
theorem extractor_crashes_on_documented_scenario :
    detectFormFields "Full Name: ____\nEmail Address: ____" [] =
      .error "TypeError: word.text is undefined" ∧
    (strategy1Go [] ⟨[], []⟩ 0 (linesOf "Full Name: ____\nEmail Address: ____")).fields.map
      (fun f => (f.label, f.type, f.required)) =
      [("Full", "name", true), ("Email", "email", true)] := by
  exact ⟨by with_unfolding_all rfl, by with_unfolding_all rfl⟩

/-- Claim C8: with known source dimensions the overlay position scales both
axes linearly and inverts the vertical axis; at the documented concrete
input the scales are 612/1000 and 792/2000; with unknown source dimensions
the page's own dimensions give the identity scale. -/
theorem coordinate_mapping (c : Coordinates) (iw ih pw ph : ℚ) (idx : ℕ) :
    (scannedPos (some c) (some iw) (some ih) pw ph idx =
      (c.inputX * (pw / iw), ph - c.inputY * (ph / ih))) ∧
    (scannedPos (some ⟨100, 50, 80, 20, 100, 50⟩) (some 1000) (some 2000) 612 792 idx =
      (100 * (612 / 1000), 792 - 50 * (792 / 2000))) ∧
    (pw ≠ 0 → ph ≠ 0 →
      scannedPos (some c) none none pw ph idx = (c.inputX, ph - c.inputY)) := by
  refine ⟨rfl, by norm_num [scannedPos], fun hw hh => ?_⟩
  unfold scannedPos
  simp only [Option.getD_none]
  rw [div_self hw, div_self hh, mul_one, mul_one]

/-- Witness for C8: the identity-scale branch at the letter page size. -/
theorem coordinate_mapping_witness :
    scannedPos (some ⟨100, 50, 80, 20, 100, 50⟩) none none 612 792 0 = (100, 792 - 50) :=
  (coordinate_mapping ⟨100, 50, 80, 20, 100, 50⟩ 0 0 612 792 0).2.2
    (by norm_num) (by norm_num)

theorem idsOk_nil : idsOk [] := rfl

theorem idsOk_push (st : DetectState) (label ty : String) (req : Bool) (pos : ℕ)
    (coords : Option Coordinates) (h : idsOk st.fields) :
    idsOk (pushField st label ty req pos coords).fields := by
  unfold idsOk pushField at *
  simp only [List.map_append, List.length_append, List.map_cons, List.map_nil,
    List.length_cons, List.length_nil, Nat.zero_add]
  rw [List.range_succ, List.map_append, h]
  simp

theorem strategy1Step_idsOk (words : List WordBox) (st : DetectState)
    (line : String) (i : ℕ) (h : idsOk st.fields) :
    idsOk (strategy1Step words st line i).fields := by
  unfold strategy1Step
  cases strategy1Detect words st line with
  | none => exact h
  | some d =>
    obtain ⟨label, ty, req, coords⟩ := d
    exact idsOk_push st label ty req i coords h

theorem strategy1Go_idsOk (words : List WordBox) :
    ∀ (ls : List String) (st : DetectState) (i : ℕ),
      idsOk st.fields → idsOk (strategy1Go words st i ls).fields := by
  intro ls
  induction ls with
  | nil => intro st i h; exact h
  | cons l ls ih =>
    intro st i h
    exact ih _ _ (strategy1Step_idsOk words st l i h)

theorem strategy2Step_idsOk (st : DetectState) (line : String) (i : ℕ)
    (st' : DetectState) (h : strategy2Step st line i = .ok st')
    (hst : idsOk st.fields) : idsOk st'.fields := by
  unfold strategy2Step at h
  split at h
  · cases h; exact hst
  · cases h2 : s2Go fieldPatterns st line with
    | error e => rw [h2] at h; cases h
    | ok o =>
      rw [h2] at h
      cases o with
      | none => cases h; exact hst
      | some d =>
        obtain ⟨label, ty, coords⟩ := d
        cases h
        exact idsOk_push st label ty _ i coords hst

theorem strategy2Go_idsOk :
    ∀ (ls : List String) (st : DetectState) (i : ℕ) (st' : DetectState),
      strategy2Go st i ls = .ok st' → idsOk st.fields → idsOk st'.fields := by
  intro ls
  induction ls with
  | nil => intro st i st' h hst; cases h; exact hst
  | cons l ls ih =>
    intro st i st' h hst
    unfold strategy2Go at h
    split at h
    · cases h
    · next st2 heq => exact ih st2 (i + 1) st' h (strategy2Step_idsOk st l i st2 heq hst)

theorem detectPasses_idsOk (text : String) (words : List WordBox)
    (st : DetectState) (h : detectPasses text words = .ok st) : idsOk st.fields := by
  unfold detectPasses at h
  have hids1 : idsOk (strategy1Go words ⟨[], []⟩ 0 (linesOf text)).fields :=
    strategy1Go_idsOk words (linesOf text) ⟨[], []⟩ 0 idsOk_nil
  split at h
  · exact strategy2Go_idsOk (linesOf text) _ 0 st h hids1
  · cases h; exact hids1

theorem pdfFieldsGo_length :
    ∀ (cs : List PDFFormControl) (i : ℕ), (pdfFieldsGo i cs).length = cs.length := by
  intro cs
  induction cs with
  | nil => intro i; rfl
  | cons c t ih => intro i; simp [pdfFieldsGo, ih]

theorem pdfFieldsGo_ids :
    ∀ (cs : List PDFFormControl) (i : ℕ),
      (pdfFieldsGo i cs).map (fun f => f.id) =
      (List.range cs.length).map (fun j => "field_" ++ toString (i + j + 1)) := by
  intro cs
  induction cs with
  | nil => intro i; rfl
  | cons c t ih =>
    intro i
    simp only [pdfFieldsGo, List.map_cons, List.length_cons,
      List.range_succ_eq_map, List.map_map, mkPdfField]
    rw [ih (i + 1)]
    congr 1
    refine List.map_congr_left ?_
    intro a ha
    have h3 : i + 1 + a + 1 = i + (a + 1) + 1 := by omega
    simp only [Function.comp_apply, h3]

/-- Claim C2: whenever the two detection passes produce zero fields, the
extractor returns exactly the fixed five-field generic fallback, in order
name, email, phone, address, date with ids `field_1 .. field_5`. -/
theorem detect_zero_fields_fallback (text : String) (words : List WordBox)
    (st : DetectState) (h : detectPasses text words = .ok st) (h0 : st.fields = []) :
    detectFormFields text words = .ok genericFields ∧
    genericFields =
      [⟨"field_1", "Full Name", "name", true, none, none, none, none⟩,
       ⟨"field_2", "Email Address", "email", true, none, none, none, none⟩,
       ⟨"field_3", "Phone Number", "phone", true, none, none, none, none⟩,
       ⟨"field_4", "Address", "address", false, none, none, none, none⟩,
       ⟨"field_5", "Date", "date", true, none, none, none, none⟩] := by
  refine ⟨?_, rfl⟩
  unfold detectFormFields
  rw [h]
  simp [h0]

/-- Witness for C2: the text `"zz"` passes both detection passes with zero
fields and receives the generic fallback. -/
theorem detect_zero_fields_fallback_witness :
    detectFormFields "zz" [] = .ok genericFields :=
  (detect_zero_fields_fallback "zz" [] ⟨[], []⟩ (by with_unfolding_all rfl) rfl).1

/-- Claim C3: on every extractor path - text heuristics with or without
word boxes (fallback included) and native PDF forms - the returned ids are
exactly `field_1 .. field_n` in order, contiguous and 1-indexed. -/
theorem extractor_ids_contiguous :
    (∀ (text : String) (words : List WordBox) (fs : List FormField),
      detectFormFields text words = .ok fs → idsOk fs) ∧
    (∀ (controls : List PDFFormControl) (fs : List FormField),
      extractPDFFormFields controls = some fs → idsOk fs) := by
  constructor
  · intro text words fs h
    unfold detectFormFields at h
    cases hp : detectPasses text words with
    | error e => rw [hp] at h; cases h
    | ok st =>
      rw [hp] at h
      dsimp only at h
      by_cases hz : st.fields.length = 0
      · rw [if_pos hz] at h
        injection h with h
        subst h
        with_unfolding_all rfl
      · rw [if_neg hz] at h
        injection h with h
        subst h
        exact detectPasses_idsOk text words st hp
  · intro controls fs h
    unfold extractPDFFormFields at h
    by_cases hz : controls.length = 0
    · rw [if_pos hz] at h; cases h
    · rw [if_neg hz] at h
      injection h with h
      subst h
      unfold idsOk
      rw [pdfFieldsGo_ids, pdfFieldsGo_length]
      apply List.map_congr_left
      intro j hj
      congr 2
      omega

/-- Witness for C3: the fallback list and a concrete two-control native
form both satisfy the contiguous-ids invariant. -/
theorem extractor_ids_contiguous_witness :
    idsOk genericFields ∧
    idsOk (pdfFieldsGo 0 [⟨"fullName", "PDFTextField"⟩, ⟨"agree", "PDFCheckBox"⟩]) := by
  constructor
  · exact extractor_ids_contiguous.1 "zz" [] genericFields
      (by with_unfolding_all rfl)
  · exact extractor_ids_contiguous.2
      [⟨"fullName", "PDFTextField"⟩, ⟨"agree", "PDFCheckBox"⟩] _
      (by with_unfolding_all rfl)

theorem lookupValue_setValue (k v : String) :
    ∀ m : List (String × String), lookupValue (setValue m k v) k = some v := by
  intro m
  induction m with
  | nil => simp [setValue, lookupValue, List.find?]
  | cons p t ih =>
    by_cases hp : p.1 = k
    · simp [setValue, hp, lookupValue, List.find?]
    · have h1 : setValue (p :: t) k v = p :: setValue t k v := by
        simp [setValue, hp]
      rw [h1]
      unfold lookupValue
      rw [List.find?_cons_of_neg _ (by simpa using hp)]
      exact ih

/-- Claim C9: the document fill engine never mutates the caller-supplied
schema or values map - `generateFilledPDF` and both strategy functions
return them exactly as supplied, on every path. -/
theorem fill_preserves_schema_values :
    (∀ (widthOf : String → ℚ → ℚ) (src : SourceDoc) (schema : FormSchemaS)
        (values : List (String × String)),
      (generateFilledPDF widthOf src schema values).2.1 = schema ∧
      (generateFilledPDF widthOf src schema values).2.2 = values) ∧
    (∀ (doc : PdfDoc) (schema : FormSchemaS) (values : List (String × String)),
      (fillInteractivePDFForm doc schema values).2.2.1 = schema ∧
      (fillInteractivePDFForm doc schema values).2.2.2 = values) ∧
    (∀ (widthOf : String → ℚ → ℚ) (doc : PdfDoc) (schema : FormSchemaS)
        (values : List (String × String)),
      (fillScannedForm widthOf doc schema values).2.1 = schema ∧
      (fillScannedForm widthOf doc schema values).2.2 = values) := by
  refine ⟨?_, ?_, ?_⟩
  · intro widthOf src schema values
    cases src with
    | pdf doc =>
      unfold generateFilledPDF fillInteractivePDFForm fillScannedForm
      by_cases hz : doc.controls.length = 0 <;> simp [hz]
    | image w h => exact ⟨rfl, rfl⟩
  · intro doc schema values
    unfold fillInteractivePDFForm
    by_cases hz : doc.controls.length = 0 <;> simp [hz]
  · intro widthOf doc schema values
    exact ⟨rfl, rfl⟩

/-- Claim C10: every mutating store operation invoked with a session id not
present in the store is a total no-op (the store is returned unchanged),
and `getSession` on such an id returns null. -/
theorem store_missing_id_noop (st : Store)
    (id fieldName value role content filePath : String) (index : ℕ)
    (h : ∀ p ∈ st, p.1 ≠ id) :
    getSession st id = none ∧
    updateField st id fieldName value = st ∧
    addMessage st id role content = st ∧
    setCurrentFieldIndex st id index = st ∧
    markComplete st id = st ∧
    setOriginalFilePath st id filePath = st ∧
    deleteSession st id = st := by
  have hg : getSession st id = none := by
    unfold getSession
    rw [List.find?_eq_none.mpr]
    · rfl
    · intro p hp
      simpa using h p hp
  refine ⟨hg, ?_, ?_, ?_, ?_, ?_, ?_⟩
  · unfold updateField; rw [hg]
  · unfold addMessage; rw [hg]
  · unfold setCurrentFieldIndex; rw [hg]
  · unfold markComplete; rw [hg]
  · unfold setOriginalFilePath; rw [hg]
  · unfold deleteSession
    apply List.filter_eq_self.mpr
    intro p hp
    simpa using h p hp

/-- Witness for C10: the single-session demo store is untouched by a
deletion with an unknown id, on which `getSession` is null. -/
theorem store_missing_id_noop_witness :
    getSession demoStore "missing" = none ∧
    deleteSession demoStore "missing" = demoStore := by
  have h := store_missing_id_noop demoStore "missing" "f" "v" "user" "c" "p" 0
    (by
      intro p hp
      simp only [demoStore, List.mem_singleton] at hp
      subst hp
      with_unfolding_all decide)
  exact ⟨h.1, h.2.2.2.2.2.2⟩

/-- Claim C1: one `/chat` transition on a session in the Collecting state
(the cursor points at an existing field, `complete` is false).  An answer
failing validation leaves the cursor and the recorded values unchanged,
keeps `complete` false, and emits a re-prompt for the same field carrying
the validator's reason; an answer passing validation is recorded under the
current field's id, increments the cursor by exactly one, and `complete`
becomes true exactly when the new cursor equals the field count.  On the
concrete three-field schema, three valid answers drive the cursor 0,1,2,3
and flip `complete` on the third. -/
theorem chat_transition (stringify : ChatResponse → String)
    (gen : StoreSession → String → ChatResponse) (s : StoreSession)
    (message : String) (f : FormField)
    (hf : s.formSchema.fields.get? s.currentFieldIndex = some f)
    (hc : s.isComplete = false) :
    ((validateFieldValue f.type message).valid = false →
      ((chatStep stringify gen s message).1.currentFieldIndex = s.currentFieldIndex ∧
       (chatStep stringify gen s message).1.filledFields = s.filledFields ∧
       (chatStep stringify gen s message).1.isComplete = false ∧
       (chatStep stringify gen s message).2.validationError = true ∧
       (chatStep stringify gen s message).2.fieldId = some f.id ∧
       (chatStep stringify gen s message).2.question =
         (validateFieldValue f.type message).message ++ ". Please try again: " ++ f.label)) ∧
    ((validateFieldValue f.type message).valid = true →
      (lookupValue (chatStep stringify gen s message).1.filledFields f.id = some message ∧
       (chatStep stringify gen s message).1.currentFieldIndex = s.currentFieldIndex + 1 ∧
       ((chatStep stringify gen s message).1.isComplete = true ↔
         s.currentFieldIndex + 1 = s.formSchema.fields.length))) ∧
    (((chatStep stringify gen demoSession3 "one").1.currentFieldIndex = 1 ∧
      (chatStep stringify gen demoSession3 "one").1.isComplete = false) ∧
     ((chatStep stringify gen (chatStep stringify gen demoSession3 "one").1
        "two").1.currentFieldIndex = 2 ∧
      (chatStep stringify gen (chatStep stringify gen demoSession3 "one").1
        "two").1.isComplete = false) ∧
     ((chatStep stringify gen (chatStep stringify gen (chatStep stringify gen
        demoSession3 "one").1 "two").1 "three").1.currentFieldIndex = 3 ∧
      (chatStep stringify gen (chatStep stringify gen (chatStep stringify gen
        demoSession3 "one").1 "two").1 "three").1.isComplete = true)) := by
  have hlen : s.currentFieldIndex < s.formSchema.fields.length := by
    by_contra hcon
    rw [List.get?_eq_none.mpr (Nat.le_of_not_lt hcon)] at hf
    cases hf
  refine ⟨?_, ?_, ?_⟩
  · intro hv
    unfold chatStep
    dsimp only
    rw [hf]
    dsimp only
    rw [if_pos hv]
    exact ⟨rfl, rfl, hc, rfl, rfl, rfl⟩
  · intro hv
    unfold chatStep
    dsimp only
    rw [hf]
    dsimp only
    rw [if_neg (by simp [hv])]
    by_cases hfin : s.formSchema.fields.length ≤ s.currentFieldIndex + 1
    · rw [if_pos hfin]
      refine ⟨lookupValue_setValue _ _ _, rfl, ?_⟩
      constructor
      · intro _; omega
      · intro _; rfl
    · rw [if_neg hfin]
      refine ⟨lookupValue_setValue _ _ _, rfl, ?_⟩
      constructor
      · intro hcon; rw [hc] at hcon; cases hcon
      · intro hcon; omega
  · exact ⟨⟨by with_unfolding_all rfl, by with_unfolding_all rfl⟩,
      ⟨by with_unfolding_all rfl, by with_unfolding_all rfl⟩,
      ⟨by with_unfolding_all rfl, by with_unfolding_all rfl⟩⟩

/-- Witness for C1: an invalid email answer on the one-field demo session
does not advance the cursor and re-prompts the same field. -/
theorem chat_transition_witness :
    (chatStep enc0 gen0 demoEmailSession "zzz").1.currentFieldIndex = 0 ∧
    (chatStep enc0 gen0 demoEmailSession "zzz").2.validationError = true ∧
    (chatStep enc0 gen0 demoEmailSession "zzz").2.fieldId = some "field_1" := by
  have h := (chat_transition enc0 gen0 demoEmailSession "zzz"
    ⟨"field_1", "Email", "email", true, none, none, none, none⟩
    (by with_unfolding_all rfl) rfl).1 (by with_unfolding_all rfl)
  exact ⟨h.1, h.2.2.2.1, h.2.2.2.2.1⟩

end FormFiller
